import Mathlib

/-!
Verification development for the HargaEmasID gold-price bot (`src/main.py`).

The Python source is shallowly embedded: pure helpers become Lean
functions, the process-wide cache becomes explicit state passing,
Python floats are modelled as exact rationals with Python's
round-half-to-even, and `Optional` values become `Option`.
Python truthiness is modelled where the source relies on it
(`if not text`, `if not parsed`, `if spot_usd and fx`, `if cached`).
-/

set_option maxHeartbeats 1000000

namespace HargaEmas

/-! ## Rounding and truncation primitives -/

/-- Python's `round(x)` on a float, modelled on exact rationals:
round to nearest, ties to even (banker's rounding). -/
def pyRound (q : ℚ) : ℤ :=
  if q - ⌊q⌋ < 1/2 then ⌊q⌋
  else if 1/2 < q - ⌊q⌋ then ⌊q⌋ + 1
  else if ⌊q⌋ % 2 = 0 then ⌊q⌋ else ⌊q⌋ + 1

/-- Python's `int(x)` on a float: truncation toward zero. -/
def truncQ (q : ℚ) : ℤ :=
  if 0 ≤ q then ⌊q⌋ else ⌈q⌉

theorem truncQ_intCast (m : ℤ) : truncQ (m : ℚ) = m := by
  unfold truncQ
  split <;> simp

theorem pyRound_near (q : ℚ) : |(pyRound q : ℚ) - q| ≤ 1/2 := by
  have hfl : (⌊q⌋ : ℚ) ≤ q := Int.floor_le q
  have hfu : q < (⌊q⌋ : ℚ) + 1 := Int.lt_floor_add_one q
  unfold pyRound
  rw [abs_le]
  split
  · constructor <;> linarith
  · split
    · constructor <;> push_cast <;> linarith
    · split <;> constructor <;> push_cast <;> linarith

theorem pyRound_pos (q : ℚ) (h : 1/2 < q) : 0 < pyRound q := by
  have hq : (0 : ℚ) < q := lt_trans (by norm_num) h
  have hn : 0 ≤ ⌊q⌋ := Int.floor_nonneg.mpr (le_of_lt hq)
  have hfl : (⌊q⌋ : ℚ) ≤ q := Int.floor_le q
  unfold pyRound
  split
  · rename_i h1
    rcases lt_or_eq_of_le hn with h2 | h2
    · exact h2
    · exfalso
      rw [← h2] at h1
      push_cast at h1
      linarith
  · split
    · omega
    · rename_i h1 h2
      have h3 : q - (⌊q⌋ : ℚ) = 1/2 := le_antisymm (not_lt.mp h2) (not_lt.mp h1)
      have h4 : 0 < ⌊q⌋ := by
        rcases lt_or_eq_of_le hn with h5 | h5
        · exact h5
        · exfalso
          rw [← h5] at h3
          push_cast at h3
          linarith
      split <;> omega

/-! ## Text extractor (`clean_int_from_text`, src/main.py lines 60-73) -/

/-- Value of a digit string read left to right, as `int(digits)` does. -/
def digitsToNat (ds : List Char) : ℕ :=
  ds.foldl (fun n c => 10 * n + (c.toNat - 48)) 0

/-- Embedding of `clean_int_from_text`: Python's
`re.sub(r"[^\d]", "", text)` keeps every digit character (all runs
concatenated); `if not text` / `if not digits` are the falsy checks on
the empty string / empty result; `int` on a nonempty digit string
never raises, so the `except ValueError` branch is dead. -/
def clean_int_from_text (t : String) : Option ℕ :=
  if t = ("") then none
  else
    let digits := t.data.filter Char.isDigit
    if digits.isEmpty then none
    else some (digitsToNat digits)

theorem length_dropWhile_le {α : Type} (p : α → Bool) (l : List α) :
    (l.dropWhile p).length ≤ l.length := by
  induction l with
  | nil => simp
  | cons a l ih =>
    rw [List.dropWhile_cons]
    split
    · exact Nat.le_succ_of_le ih
    · exact Nat.le_refl _

/-- The maximal runs of consecutive digit characters of a string. -/
def digitRuns : List Char → List (List Char)
  | [] => []
  | c :: rest =>
    if c.isDigit then
      (c :: rest.takeWhile Char.isDigit) :: digitRuns (rest.dropWhile Char.isDigit)
    else digitRuns rest
termination_by l => l.length
decreasing_by
  · simp only [List.length_cons]
    have := length_dropWhile_le Char.isDigit rest
    omega
  · simp

/-- Stated per the spec's words ("extract the first run of digit
characters, ignoring separators such as `.`, `,`, and currency
symbols"): strip the separator characters, skip the leading non-digit
prefix, and parse the first maximal digit run. -/
def specFirstRunExtract (t : String) : Option ℕ :=
  let cs := t.data.filter (fun c => c ≠ '.' ∧ c ≠ ',')
  let run := (cs.dropWhile (fun c => ¬ c.isDigit)).takeWhile Char.isDigit
  if run.isEmpty then none else some (digitsToNat run)

/-- What the code actually computes, stated independently of its
implementation: the concatenation of all maximal digit runs, parsed as
a non-negative integer; no value when there is no digit at all. -/
def specAllRunsExtract (t : String) : Option ℕ :=
  let rs := digitRuns t.data
  if rs.isEmpty then none else some (digitsToNat rs.flatten)

theorem digitRuns_flatten (cs : List Char) :
    (digitRuns cs).flatten = cs.filter Char.isDigit := by
  induction cs using digitRuns.induct with
  | case1 => simp [digitRuns]
  | case2 c rest hd ih =>
    rw [digitRuns]
    rw [if_pos hd, List.flatten_cons, ih]
    have htw : (rest.takeWhile Char.isDigit).filter Char.isDigit
        = rest.takeWhile Char.isDigit := by
      apply List.filter_eq_self.mpr
      intro a ha
      exact List.mem_takeWhile_imp ha
    calc (c :: rest.takeWhile Char.isDigit) ++ (rest.dropWhile Char.isDigit).filter Char.isDigit
        = c :: ((rest.takeWhile Char.isDigit).filter Char.isDigit
            ++ (rest.dropWhile Char.isDigit).filter Char.isDigit) := by
          rw [htw]; simp
      _ = c :: (rest.takeWhile Char.isDigit ++ rest.dropWhile Char.isDigit).filter Char.isDigit := by
          rw [List.filter_append]
      _ = (c :: rest).filter Char.isDigit := by
          rw [List.takeWhile_append_dropWhile, List.filter_cons, if_pos hd]
  | case3 c rest hd ih =>
    rw [digitRuns]
    rw [if_neg hd, ih, List.filter_cons]
    rw [if_neg (by simpa using hd)]

theorem digitRuns_ne_nil_mem (cs : List Char) :
    ∀ r ∈ digitRuns cs, r ≠ [] := by
  induction cs using digitRuns.induct with
  | case1 => simp [digitRuns]
  | case2 c rest hd ih =>
    rw [digitRuns]
    simp only [if_pos hd, List.mem_cons]
    rintro r (rfl | hr)
    · simp
    · exact ih r hr
  | case3 c rest hd ih =>
    rw [digitRuns]
    rw [if_neg hd]
    exact ih

theorem digitRuns_eq_nil_iff (cs : List Char) :
    digitRuns cs = [] ↔ cs.filter Char.isDigit = [] := by
  constructor
  · intro h
    have h2 := digitRuns_flatten cs
    rw [h] at h2
    simpa using h2.symm
  · intro h
    cases hr : digitRuns cs with
    | nil => rfl
    | cons r rs =>
      have hj := digitRuns_flatten cs
      rw [hr, h, List.flatten_cons] at hj
      have hrne : r ≠ [] := digitRuns_ne_nil_mem cs r (by rw [hr]; exact List.mem_cons_self r rs)
      exact absurd (List.append_eq_nil.mp hj).1 hrne

theorem clean_int_eq_allRuns (t : String) :
    clean_int_from_text t = specAllRunsExtract t := by
  unfold clean_int_from_text specAllRunsExtract
  by_cases he : t = ("")
  · subst he
    simp [digitRuns]
  · rw [if_neg he]
    by_cases hd : t.data.filter Char.isDigit = []
    · have h2 : digitRuns t.data = [] := (digitRuns_eq_nil_iff t.data).mpr hd
      simp [hd, h2]
    · have h2 : digitRuns t.data ≠ [] := fun hc => hd ((digitRuns_eq_nil_iff t.data).mp hc)
      simp [List.isEmpty_iff, hd, h2, digitRuns_flatten]

/-! ## Data model -/

/-- Embedding of the `PriceQuote` dataclass. -/
structure PriceQuote where
  name : String
  idr_per_gram : ℤ
  detail : String
deriving DecidableEq

/-- `prices_dict`: ordered mapping source name → IDR per gram. -/
abbrev PriceSet := List (String × ℤ)

/-- `notes`: ordered list of unavailability notes. -/
abbrev Notes := List String

/-- An aggregation result, the value stored in the cache. -/
abbrev AggVal := PriceSet × Notes

/-! ## Python-dict operations (insertion-ordered association lists) -/

/-- `d[k] = v` on a Python dict: replace in place if the key exists,
else append at the end. -/
def dictSet {α : Type} : List (String × α) → String → α → List (String × α)
  | [], k, v => [(k, v)]
  | (k', v') :: rest, k, v =>
    if k' = k then (k, v) :: rest else (k', v') :: dictSet rest k v

/-- `d.get(k)` on a Python dict. -/
def dictGet {α : Type} : List (String × α) → String → Option α
  | [], _ => none
  | (k', v') :: rest, k => if k' = k then some v' else dictGet rest k

/-- `d.pop(k, None)` on a Python dict (dropping the returned value). -/
def dictPop {α : Type} : List (String × α) → String → List (String × α)
  | [], _ => []
  | (k', v') :: rest, k => if k' = k then rest else (k', v') :: dictPop rest k

theorem mem_dictSet_self {α : Type} (l : List (String × α)) (k : String) (v : α) :
    (k, v) ∈ dictSet l k v := by
  induction l with
  | nil => simp [dictSet]
  | cons p rest ih =>
    obtain ⟨k', v'⟩ := p
    rw [dictSet]
    split
    · exact List.mem_cons_self _ _
    · exact List.mem_cons_of_mem _ ih

theorem mem_dictSet_of_ne {α : Type} {l : List (String × α)} {p : String × α}
    {k : String} (v : α) (hp : p ∈ l) (hne : p.1 ≠ k) : p ∈ dictSet l k v := by
  induction l with
  | nil => simp at hp
  | cons q rest ih =>
    obtain ⟨k', v'⟩ := q
    rw [dictSet]
    rcases List.mem_cons.mp hp with rfl | hp'
    · rw [if_neg (by simpa using hne)]
      exact List.mem_cons_self _ _
    · split
      · exact List.mem_cons_of_mem _ hp'
      · exact List.mem_cons_of_mem _ (ih hp')

theorem mem_of_mem_dictSet {α : Type} {l : List (String × α)} {p : String × α}
    {k : String} {v : α} (hp : p ∈ dictSet l k v) : p = (k, v) ∨ p ∈ l := by
  induction l with
  | nil => simpa [dictSet] using hp
  | cons q rest ih =>
    obtain ⟨k', v'⟩ := q
    rw [dictSet] at hp
    split at hp
    · rcases List.mem_cons.mp hp with rfl | hp'
      · exact Or.inl rfl
      · exact Or.inr (List.mem_cons_of_mem _ hp')
    · rcases List.mem_cons.mp hp with rfl | hp'
      · exact Or.inr (List.mem_cons_self _ _)
      · rcases ih hp' with h | h
        · exact Or.inl h
        · exact Or.inr (List.mem_cons_of_mem _ h)

/-! ## Source fetchers (src/main.py lines 86-188)

The HTTP/HTML stages of each scraper are external I/O; they are
modelled by their outcome, the regex-matched `"Rp ..."` token handed to
`clean_int_from_text` (or `none` for any network/parse failure). The
final lines of each fetcher are embedded exactly. -/

/-- Final stage of both scrapers: `parsed = clean_int_from_text(...)`;
`if not parsed: return None` (Python: `0` is falsy); otherwise build
the `PriceQuote`. -/
def quote_from_text (name detail : String) (t : String) : Option PriceQuote :=
  match clean_int_from_text t with
  | none => none
  | some 0 => none
  | some (n+1) => some ⟨name, (n : ℤ) + 1, detail⟩

/-- `fetch_antam_logammulia`, given the regex-matched price token (or
`none` for any failure up to that point). -/
def fetch_antam_logammulia (matched : Option String) : Option PriceQuote :=
  match matched with
  | none => none
  | some t => quote_from_text ("Antam (LogamMulia)") ("1gr") t

/-- `fetch_harga_emas_org`, given the regex-matched price token. -/
def fetch_harga_emas_org (matched : Option String) : Option PriceQuote :=
  match matched with
  | none => none
  | some t => quote_from_text ("Harga-Emas.org") ("24K") t

/-- `fetch_spot_xau_usd`: `if not GOLDAPI_KEY: return None` (empty
string is falsy); otherwise the JSON `price` field (already `none` for
any network/JSON failure or a missing field). -/
def fetch_spot_xau_usd (goldapiKey : String) (apiPrice : Option ℚ) : Option ℚ :=
  if goldapiKey = ("") then none else apiPrice

/-- `fetch_usd_idr_rate`: `if not EXCHANGERATE_API_KEY: return None`;
then `idr = rates.get("IDR"); if not idr: return None` (both `None`
and `0.0` are falsy). -/
def fetch_usd_idr_rate (exchangerateKey : String) (idrRate : Option ℚ) : Option ℚ :=
  if exchangerateKey = ("") then none
  else
    match idrRate with
    | none => none
    | some r => if r = 0 then none else some r

/-- `xau_usd_oz_to_idr_per_gram` (src/main.py lines 191-197):
`int(round(x * r / 31.1034768))`. -/
def xau_usd_oz_to_idr_per_gram (xau_usd_per_oz usd_idr : ℚ) : ℤ :=
  pyRound (xau_usd_per_oz * usd_idr / (31.1034768 : ℚ))

/-! ## Aggregation (src/main.py lines 203-238) -/

/-- First fetch block of `get_gold_prices_idr_per_gram`: `if antam:`
(a dataclass instance is always truthy, `None` falsy). -/
def antamStep (antam : Option PriceQuote) : AggVal :=
  match antam with
  | some q => (dictSet [] q.name q.idr_per_gram, [])
  | none => ([], ["Antam source unavailable"])

/-- Second fetch block: `if he:`. -/
def heStep (s1 : AggVal) (he : Option PriceQuote) : AggVal :=
  match he with
  | some q => (dictSet s1.1 q.name q.idr_per_gram, s1.2)
  | none => (s1.1, s1.2 ++ ["Harga-Emas.org source unavailable"])

/-- Third block: `if spot_usd and fx:` is Python truthiness — both
present and both nonzero. -/
def spotStep (s2 : AggVal) (spot fx : Option ℚ) : AggVal :=
  match spot, fx with
  | some s, some f =>
    if s ≠ 0 ∧ f ≠ 0 then
      (dictSet s2.1 ("Spot (XAU/USD→IDR)") (xau_usd_oz_to_idr_per_gram s f), s2.2)
    else (s2.1, s2.2 ++ ["Spot source unavailable (missing/failed API keys)"])
  | _, _ => (s2.1, s2.2 ++ ["Spot source unavailable (missing/failed API keys)"])

/-- The body of `get_gold_prices_idr_per_gram` after a cache miss,
parameterised by the four fetch outcomes. -/
def aggregate (antam he : Option PriceQuote) (spot fx : Option ℚ) : AggVal :=
  spotStep (heStep (antamStep antam) he) spot fx

/-! ## Cache (src/main.py lines 32-57) -/

/-- `CACHE_TTL_SECONDS = 300`. -/
def CACHE_TTL_SECONDS : ℚ := 300

/-- The process-wide `_cache` dict, passed explicitly. -/
abbrev Cache := List (String × (ℚ × AggVal))

/-- `cache_get` with `time.time()` passed explicitly: return `None`
for a missing key; lazily pop and return `None` when
`now - ts > CACHE_TTL_SECONDS`; otherwise return the stored value. -/
def cache_get (c : Cache) (key : String) (now : ℚ) : Cache × Option AggVal :=
  match dictGet c key with
  | none => (c, none)
  | some (ts, val) =>
    if now - ts > CACHE_TTL_SECONDS then (dictPop c key, none) else (c, some val)

/-- `cache_set`. -/
def cache_set (c : Cache) (key : String) (now : ℚ) (val : AggVal) : Cache :=
  dictSet c key (now, val)

/-- One `await fetch(...)` suspension: the fetcher starts and runs to
completion before control returns. -/
inductive FetchEvent where
  | start (src : String)
  | finish (src : String)
deriving DecidableEq

/-- The event trace of the fetch section of
`get_gold_prices_idr_per_gram`: the code awaits each source in turn
(`await fetch_antam_logammulia`, then `await fetch_harga_emas_org`,
then the spot+FX pair), so each await completes before the next
starts. -/
def missTrace : List FetchEvent :=
  [FetchEvent.start ("Antam"), FetchEvent.finish ("Antam"),
   FetchEvent.start ("HargaEmasOrg"), FetchEvent.finish ("HargaEmasOrg"),
   FetchEvent.start ("SpotFX"), FetchEvent.finish ("SpotFX")]

/-- `get_gold_prices_idr_per_gram`: check the cache (`if cached:` is
always truthy for the stored 2-tuple), otherwise run the fetchers,
store the result with the current timestamp, and return it. The third
component is the trace of fetcher invocations performed by the call. -/
def get_gold_prices_idr_per_gram (c : Cache) (now : ℚ)
    (antam he : Option PriceQuote) (spot fx : Option ℚ) :
    Cache × AggVal × List FetchEvent :=
  match cache_get c ("gold_prices") now with
  | (c', some v) => (c', v, [])
  | (c', none) =>
    let pn := aggregate antam he spot fx
    (cache_set c' ("gold_prices") now pn, pn, missTrace)

/-- A trace is "concurrent" in the sense of the spec when no fetcher's
start is blocked by another fetcher's result: every start event of one
source occurs before every finish event of any other source. -/
def concurrentStarts (t : List FetchEvent) : Bool :=
  t.enum.all fun ie =>
    match ie.2 with
    | FetchEvent.finish b =>
      t.enum.all fun je =>
        match je.2 with
        | FetchEvent.start a => if a = b then true else decide (je.1 < ie.1)
        | _ => true
    | _ => true

/-- A trace is sequential when it is a chain of immediately completed
awaits: start/finish pairs of the same source, one after another. -/
def isSequentialTrace : List FetchEvent → Bool
  | [] => true
  | FetchEvent.start a :: FetchEvent.finish b :: rest =>
    a = b && isSequentialTrace rest
  | _ => false

/-! ## Presenter (src/main.py lines 241-268) -/

/-- `sorted(vals)` as used by `statistics.median`. -/
def sortVals (l : List ℤ) : List ℤ :=
  l.insertionSort (· ≤ ·)

/-- `statistics.median(vals)` by its standard definition: middle value
for an odd count, arithmetic mean of the two middle values for an even
count (exact, as a rational). -/
def medianSpec (l : List ℤ) : ℚ :=
  if (sortVals l).length % 2 = 1 then
    (((sortVals l).getD ((sortVals l).length / 2) 0 : ℤ) : ℚ)
  else
    ((((sortVals l).getD ((sortVals l).length / 2 - 1) 0 : ℤ) : ℚ)
      + (((sortVals l).getD ((sortVals l).length / 2) 0 : ℤ) : ℚ)) / 2

/-- `int(statistics.median(vals))`: for an odd count the middle value;
for an even count `int()` of the float mean, i.e. truncation. -/
def medianCode (l : List ℤ) : ℤ :=
  if (sortVals l).length % 2 = 1 then
    (sortVals l).getD ((sortVals l).length / 2) 0
  else
    truncQ (((((sortVals l).getD ((sortVals l).length / 2 - 1) 0 : ℤ) : ℚ)
      + (((sortVals l).getD ((sortVals l).length / 2) 0 : ℤ) : ℚ)) / 2)

theorem medianCode_eq_trunc (l : List ℤ) : medianCode l = truncQ (medianSpec l) := by
  unfold medianCode medianSpec
  split
  · rw [truncQ_intCast]
  · rfl

/-- `max(vals)` (only evaluated when `vals` is nonempty). -/
def listMax : List ℤ → ℤ
  | [] => 0
  | x :: xs => xs.foldl max x

/-- `min(vals)`. -/
def listMin : List ℤ → ℤ
  | [] => 0
  | x :: xs => xs.foldl min x

/-- `spread = max(vals) - min(vals) if len(vals) >= 2 else 0`. -/
def spreadCode (vals : List ℤ) : ℤ :=
  if 2 ≤ vals.length then listMax vals - listMin vals else 0

/-- Digits of `n`, least significant first, with a `,` after every
third digit: the core of Python's `f"{n:,}"`. -/
def group3 : List Char → List Char
  | [] => []
  | [a] => [a]
  | [a, b] => [a, b]
  | [a, b, c] => [a, b, c]
  | a :: b :: c :: d :: rest => a :: b :: c :: ',' :: group3 (d :: rest)

/-- Python's `f"{n:,}"` for a natural number. -/
def commaGroupNat (n : ℕ) : String :=
  ⟨(group3 (Nat.toDigits 10 n).reverse).reverse⟩

/-- Python's `f"{v:,}"` for an integer. -/
def commaGroupInt (v : ℤ) : String :=
  if v < 0 then ("-") ++ commaGroupNat v.natAbs else commaGroupNat v.toNat

/-- `.replace(",", ".")` on a whole line: the pattern is the single
character `','`, so the replacement maps each comma to a period. -/
def replaceCommaDot (s : String) : String :=
  ⟨s.data.map (fun c => if c = ',' then '.' else c)⟩

/-- One source line: `f"{k}: Rp {v:,}".replace(",", ".")` — note the
`replace` acts on the whole formatted line, key included. -/
def priceLine (k : String) (v : ℤ) : String :=
  replaceCommaDot (k ++ (": Rp ") ++ commaGroupInt v)

/-- `f"📊 Median: Rp {median:,}".replace(",", ".")`. -/
def medianLine (m : ℤ) : String :=
  replaceCommaDot (("📊 Median: Rp ") ++ commaGroupInt m)

/-- `f"↔️ Spread: Rp {spread:,}".replace(",", ".")`, appended only when
at least two values exist. -/
def spreadLineOpt (vals : List ℤ) : Option String :=
  if 2 ≤ vals.length then
    some (replaceCommaDot (("↔️ Spread: Rp ") ++ commaGroupInt (spreadCode vals)))
  else none

/-- `"ℹ️ " + " | ".join(notes[:2])`. -/
def notesLine (notes : List String) : String :=
  ("ℹ️ ") ++ String.intercalate (" | ") (notes.take 2)

/-- The `lines` list built by `format_price_message` in the nonempty
case, with the timestamp `now_wib_str()` passed explicitly. -/
def format_lines (prices : PriceSet) (notes : Notes) (ts : String) : List String :=
  ["💰 Harga Emas (IDR/gram)", "──────────────"]
    ++ prices.map (fun p => priceLine p.1 p.2)
    ++ ["──────────────", medianLine (medianCode (prices.map (fun p => p.2)))]
    ++ (spreadLineOpt (prices.map (fun p => p.2))).toList
    ++ (if notes.isEmpty then [] else ["", notesLine notes])
    ++ [("⏱ ") ++ ts]

/-- The fixed all-sources-failed message (without the timestamp). -/
def failMsgPrefix : String :=
  "Maaf, semua sumber harga emas sedang gagal.\nCoba lagi beberapa menit.\n⏱ "

/-- `format_price_message` with the timestamp passed explicitly:
`if not prices:` (empty dict is falsy) returns the fixed failure
message; otherwise the joined `lines`. -/
def format_price_message (prices : PriceSet) (notes : Notes) (ts : String) : String :=
  if prices.isEmpty then failMsgPrefix ++ ts
  else String.intercalate ("\n") (format_lines prices notes ts)

/-! ## Shared helper lemmas -/

/-- The spec's PriceSet invariant: all values strictly positive. -/
def pricesPositive (ps : PriceSet) : Prop :=
  ∀ p ∈ ps, 0 < p.2

theorem quote_from_text_spec {name detail t : String} {q : PriceQuote}
    (h : quote_from_text name detail t = some q) :
    q.name = name ∧ 0 < q.idr_per_gram := by
  unfold quote_from_text at h
  rcases hc : clean_int_from_text t with _ | n
  · rw [hc] at h
    simp at h
  · rw [hc] at h
    rcases n with _ | m
    · simp at h
    · simp only [Option.some.injEq] at h
      subst h
      constructor
      · rfl
      · simp only []
        omega

theorem fetch_he_spec {m : Option String} {q : PriceQuote}
    (h : fetch_harga_emas_org m = some q) :
    q.name = ("Harga-Emas.org") ∧ 0 < q.idr_per_gram := by
  rcases m with _ | t
  · simp [fetch_harga_emas_org] at h
  · exact quote_from_text_spec h

theorem fetch_antam_spec {m : Option String} {q : PriceQuote}
    (h : fetch_antam_logammulia m = some q) :
    q.name = ("Antam (LogamMulia)") ∧ 0 < q.idr_per_gram := by
  rcases m with _ | t
  · simp [fetch_antam_logammulia] at h
  · exact quote_from_text_spec h

/-- Every note the aggregation can emit is one of the three fixed
unavailability strings. -/
theorem notes_mem_aggregate (antam he : Option PriceQuote) (spot fx : Option ℚ) :
    ∀ n ∈ (aggregate antam he spot fx).2,
      n = ("Antam source unavailable") ∨ n = ("Harga-Emas.org source unavailable")
        ∨ n = ("Spot source unavailable (missing/failed API keys)") := by
  intro n hn
  unfold aggregate spotStep heStep antamStep at hn
  rcases antam with _ | qa <;> rcases he with _ | qh <;>
    rcases spot with _ | s <;> rcases fx with _ | f <;>
    simp_all <;> try tauto
  all_goals (split at hn <;> simp_all <;> tauto)

/-- When the spot+FX pair is falsy (`if spot_usd and fx:` fails), the
third block leaves the prices untouched and appends the single fixed
spot note. -/
theorem spotStep_absent (s2 : AggVal) (spot fx : Option ℚ)
    (hsp : spot = none ∨ fx = none ∨ spot = some 0 ∨ fx = some 0) :
    spotStep s2 spot fx
      = (s2.1, s2.2 ++ [("Spot source unavailable (missing/failed API keys)")]) := by
  unfold spotStep
  rcases spot with _ | s <;> rcases fx with _ | f
  · rfl
  · rfl
  · rfl
  · rcases hsp with h | h | h | h
    · simp at h
    · simp at h
    · simp only [Option.some.injEq] at h
      subst h
      simp
    · simp only [Option.some.injEq] at h
      subst h
      simp

/-! ## Claim theorems -/

/-- **C2 counterexample.** The extractor does not return the *first*
run of digits: on `"1a2"` (where `'a'` is neither a separator nor a
currency symbol) the first digit run is `1`, but the code strips every
non-digit and returns `12`. -/
theorem C2_counterexample :
    clean_int_from_text ("1a2") = some 12 ∧
    specFirstRunExtract ("1a2") = some 1 ∧
    clean_int_from_text ("1a2") ≠ specFirstRunExtract ("1a2") := by
  refine ⟨by decide, by decide, by decide⟩

/-- **C2 (amended).** For every string, the extractor returns the
concatenation of *all* runs of digit characters (every non-digit
character stripped) parsed as a non-negative integer, and `none` when
the input is empty or has no digit; it is a total function (the
Python `except ValueError` branch is unreachable). The four concrete
examples hold. -/
theorem C2_amended_extract :
    (∀ t, clean_int_from_text t = specAllRunsExtract t) ∧
    clean_int_from_text ("Rp 1.245.000") = some 1245000 ∧
    clean_int_from_text ("") = none ∧
    clean_int_from_text ("no digits here") = none ∧
    clean_int_from_text ("1,245,000") = some 1245000 :=
  ⟨clean_int_eq_allRuns, by decide, by decide, by decide, by decide⟩

/-- **C3 (confirmed).** For positive inputs the converter returns
`round(usd_per_troy_oz * usd_to_idr_rate / 31.1034768)` where `round`
is round-to-nearest with ties to even (Python's `round`), applied
consistently: the result is within 1/2 of the exact quotient. -/
theorem C3_converter (x r : ℚ) (_hx : 0 < x) (_hr : 0 < r) :
    xau_usd_oz_to_idr_per_gram x r = pyRound (x * r / (31.1034768 : ℚ)) ∧
    |((xau_usd_oz_to_idr_per_gram x r : ℤ) : ℚ) - x * r / (31.1034768 : ℚ)| ≤ 1/2 :=
  ⟨rfl, pyRound_near _⟩

/-- **C3 witness**: `convert(2000.0, 15000.0)` satisfies the claim and
evaluates to 964522. -/
theorem C3_converter_witness :
    (0 : ℚ) < 2000 ∧ (0 : ℚ) < 15000 ∧
    (xau_usd_oz_to_idr_per_gram 2000 15000 = pyRound (2000 * 15000 / (31.1034768 : ℚ)) ∧
      |((xau_usd_oz_to_idr_per_gram 2000 15000 : ℤ) : ℚ) - 2000 * 15000 / (31.1034768 : ℚ)| ≤ 1/2) ∧
    xau_usd_oz_to_idr_per_gram 2000 15000 = 964522 :=
  ⟨by norm_num, by norm_num, C3_converter 2000 15000 (by norm_num) (by norm_num),
    by unfold xau_usd_oz_to_idr_per_gram pyRound; norm_num⟩

/-- **C6 (confirmed).** On the empty PriceSet, whatever the notes, the
presenter returns the fixed all-sources-failed message followed by the
trailing timestamp, and the fixed part contains no digit (no numeric
price content); the embedded presenter is a total function, so it
cannot raise. -/
theorem C6_empty_priceset (notes : Notes) (ts : String) :
    format_price_message [] notes ts = failMsgPrefix ++ ts ∧
    ∀ c ∈ failMsgPrefix.data, ¬ c.isDigit :=
  ⟨rfl, by decide⟩

/-- **C1 counterexample.** With a reference price of 1,000,000 (spot
31.1034768 USD/oz at rate 1,000,000, converting exactly to 1,000,000
IDR/gram) and a scraped Harga-Emas.org candidate of 1,040,000 (4% off),
the aggregation still inserts the candidate and emits no outlier note:
there is no tolerance check in the code. -/
theorem C1_counterexample :
    aggregate none (fetch_harga_emas_org (some ("Rp 1.040.000")))
        (some (31.1034768 : ℚ)) (some 1000000)
      = ([(("Harga-Emas.org"), 1040000), (("Spot (XAU/USD→IDR)"), 1000000)],
         [("Antam source unavailable")]) ∧
    (("Harga-Emas.org"), (1040000 : ℤ))
      ∈ (aggregate none (fetch_harga_emas_org (some ("Rp 1.040.000")))
          (some (31.1034768 : ℚ)) (some 1000000)).1 ∧
    ("ignored (outlier/wrong field)")
      ∉ (aggregate none (fetch_harga_emas_org (some ("Rp 1.040.000")))
          (some (31.1034768 : ℚ)) (some 1000000)).2 := by
  have hx : xau_usd_oz_to_idr_per_gram (31.1034768 : ℚ) 1000000 = 1000000 := by
    unfold xau_usd_oz_to_idr_per_gram pyRound
    norm_num
  have hf : fetch_harga_emas_org (some ("Rp 1.040.000"))
      = some ⟨("Harga-Emas.org"), 1040000, ("24K")⟩ := by decide
  have hagg : aggregate none (fetch_harga_emas_org (some ("Rp 1.040.000")))
      (some (31.1034768 : ℚ)) (some 1000000)
      = ([(("Harga-Emas.org"), 1040000), (("Spot (XAU/USD→IDR)"), 1000000)],
         [("Antam source unavailable")]) := by
    rw [hf]
    simp only [aggregate, antamStep, heStep, spotStep]
    rw [if_pos (by constructor <;> norm_num)]
    rw [hx]
    rfl
  refine ⟨hagg, ?_, ?_⟩
  · rw [hagg]
    decide
  · rw [hagg]
    decide

/-- **C1 (amended).** A scraped Harga-Emas.org price, when present, is
*always* added to the PriceSet regardless of any reference price — the
code performs no tolerance check — and the note
"ignored (outlier/wrong field)" is never produced; in particular both
candidates 1,029,000 and 1,040,000 are accepted next to reference
1,000,000. -/
theorem C1_source_b_always_accepted (antam : Option PriceQuote) (m : String)
    (spot fx : Option ℚ) (q : PriceQuote)
    (hq : fetch_harga_emas_org (some m) = some q) :
    (q.name, q.idr_per_gram) ∈ (aggregate antam (some q) spot fx).1 ∧
    ∀ n ∈ (aggregate antam (some q) spot fx).2,
      n ≠ ("ignored (outlier/wrong field)") := by
  have hname : q.name = ("Harga-Emas.org") := (fetch_he_spec hq).1
  constructor
  · unfold aggregate spotStep heStep
    have hmem : (q.name, q.idr_per_gram)
        ∈ (dictSet (antamStep antam).1 q.name q.idr_per_gram) :=
      mem_dictSet_self _ _ _
    rcases spot with _ | s <;> rcases fx with _ | f
    · exact hmem
    · exact hmem
    · exact hmem
    · simp only []
      split
      · refine mem_dictSet_of_ne _ hmem ?_
        show q.name ≠ ("Spot (XAU/USD→IDR)")
        rw [hname]
        decide
      · exact hmem
  · intro n hn
    rcases notes_mem_aggregate antam (some q) spot fx n hn with h | h | h <;>
      (rw [h]; decide)

/-- **C1 witness**: the rejected-by-the-spec candidate 1,040,000 is in
fact accepted next to the 1,000,000 reference. -/
theorem C1_source_b_witness :
    fetch_harga_emas_org (some ("Rp 1.040.000"))
      = some ⟨("Harga-Emas.org"), 1040000, ("24K")⟩ ∧
    ((("Harga-Emas.org") , (1040000 : ℤ))
        ∈ (aggregate none (some ⟨("Harga-Emas.org"), 1040000, ("24K")⟩)
            (some (31.1034768 : ℚ)) (some 1000000)).1 ∧
      ∀ n ∈ (aggregate none (some ⟨("Harga-Emas.org"), 1040000, ("24K")⟩)
          (some (31.1034768 : ℚ)) (some 1000000)).2,
        n ≠ ("ignored (outlier/wrong field)")) :=
  ⟨by decide,
    C1_source_b_always_accepted none ("Rp 1.040.000")
      (some (31.1034768 : ℚ)) (some 1000000)
      ⟨("Harga-Emas.org"), 1040000, ("24K")⟩ (by decide)⟩

/-- **C7 counterexample.** The no-credentials situation and the
credentials-present-but-calls-failed situation produce *identical*
note lists — the code does not distinguish them with "disabled" vs
"unavailable (call failed)" texts. -/
theorem C7_counterexample :
    (aggregate none none (fetch_spot_xau_usd ("") none)
        (fetch_usd_idr_rate ("") none)).2
      = (aggregate none none (fetch_spot_xau_usd ("GOLDKEY") none)
          (fetch_usd_idr_rate ("EXKEY") none)).2 ∧
    (aggregate none none (fetch_spot_xau_usd ("") none)
        (fetch_usd_idr_rate ("") none)).2
      = [("Antam source unavailable"), ("Harga-Emas.org source unavailable"),
         ("Spot source unavailable (missing/failed API keys)")] := by
  refine ⟨by decide, by decide⟩

/-- **C7 (amended).** Whenever the spot+FX pair yields no price —
whether because no credentials are configured or because a call
failed — the aggregation appends the single fixed note
"Spot source unavailable (missing/failed API keys)"; the two
situations are not distinguished: the note list is identical to the
fully-disabled scenario. -/
theorem C7_spot_note_not_distinguished (a h : Option PriceQuote) (spot fx : Option ℚ)
    (hsp : spot = none ∨ fx = none ∨ spot = some 0 ∨ fx = some 0) :
    ("Spot source unavailable (missing/failed API keys)")
        ∈ (aggregate a h spot fx).2 ∧
    (aggregate a h spot fx).2 = (aggregate a h none none).2 := by
  unfold aggregate
  rw [spotStep_absent _ _ _ hsp, spotStep_absent _ _ _ (Or.inl rfl)]
  constructor
  · simp
  · rfl

/-- **C7 witness**: with no credentials configured, the spot note is
recorded and coincides with the disabled scenario. -/
theorem C7_spot_note_witness :
    (fetch_spot_xau_usd ("") none = none ∨ fetch_usd_idr_rate ("") none = none ∨
      fetch_spot_xau_usd ("") none = some 0 ∨ fetch_usd_idr_rate ("") none = some 0) ∧
    (("Spot source unavailable (missing/failed API keys)")
        ∈ (aggregate none none (fetch_spot_xau_usd ("") none)
            (fetch_usd_idr_rate ("") none)).2 ∧
      (aggregate none none (fetch_spot_xau_usd ("") none)
          (fetch_usd_idr_rate ("") none)).2
        = (aggregate none none none none).2) :=
  ⟨Or.inl (by decide),
    C7_spot_note_not_distinguished none none _ _ (Or.inl (by decide))⟩

/-- **C8 counterexample.** The positivity invariant fails for a
reachable spot outcome: a spot price of 0.001 USD/oz with FX rate 1
passes the truthiness filter (both nonzero) but converts and rounds to
0, which is inserted into the PriceSet. -/
theorem C8_counterexample :
    (aggregate none none (some (1/1000 : ℚ)) (some 1)).1
      = [(("Spot (XAU/USD→IDR)"), 0)] ∧
    ¬ pricesPositive (aggregate none none (some (1/1000 : ℚ)) (some 1)).1 := by
  have hx : xau_usd_oz_to_idr_per_gram (1/1000 : ℚ) 1 = 0 := by
    unfold xau_usd_oz_to_idr_per_gram pyRound
    norm_num
  have hagg : (aggregate none none (some (1/1000 : ℚ)) (some 1)).1
      = [(("Spot (XAU/USD→IDR)"), 0)] := by
    simp only [aggregate, antamStep, heStep, spotStep]
    rw [if_pos (by constructor <;> norm_num)]
    rw [hx]
    rfl
  refine ⟨hagg, ?_⟩
  rw [hagg]
  intro hpos
  have := hpos (("Spot (XAU/USD→IDR)"), 0) (by decide)
  simp at this

/-- **C8 (amended).** All values of the returned PriceSet are strictly
positive under every combination of scraper outcomes (a parsed 0 is
treated as unavailable), *provided* that when both spot and FX values
are present and nonzero their product exceeds 31.1034768/2, so that
the converted spot price rounds to at least 1; without that proviso
the spot entry can be 0 or negative. -/
theorem C8_positive_prices (mA mB : Option String) (spot fx : Option ℚ)
    (hsp : ∀ s f, spot = some s → fx = some f → s ≠ 0 → f ≠ 0 →
      (1/2 : ℚ) < s * f / (31.1034768 : ℚ)) :
    pricesPositive (aggregate (fetch_antam_logammulia mA)
      (fetch_harga_emas_org mB) spot fx).1 := by
  intro p hp
  have hantam : pricesPositive (antamStep (fetch_antam_logammulia mA)).1 := by
    intro p' hp'
    unfold antamStep at hp'
    rcases hA : fetch_antam_logammulia mA with _ | qa
    · rw [hA] at hp'
      simp at hp'
    · rw [hA] at hp'
      simp only [] at hp'
      rcases mem_of_mem_dictSet hp' with h | h
      · rw [h]
        exact (fetch_antam_spec hA).2
      · simp at h
  have hhe : pricesPositive (heStep (antamStep (fetch_antam_logammulia mA))
      (fetch_harga_emas_org mB)).1 := by
    intro p' hp'
    unfold heStep at hp'
    rcases hB : fetch_harga_emas_org mB with _ | qb
    · rw [hB] at hp'
      exact hantam p' hp'
    · rw [hB] at hp'
      simp only [] at hp'
      rcases mem_of_mem_dictSet hp' with h | h
      · rw [h]
        exact (fetch_he_spec hB).2
      · exact hantam p' h
  unfold aggregate spotStep at hp
  rcases spot with _ | s <;> rcases fx with _ | f
  · exact hhe p hp
  · exact hhe p hp
  · exact hhe p hp
  · simp only [] at hp
    split at hp
    · rename_i hcond
      rcases mem_of_mem_dictSet hp with h | h
      · rw [h]
        simp only []
        exact pyRound_pos _ (hsp s f rfl rfl hcond.1 hcond.2)
      · exact hhe p h
    · exact hhe p hp

/-- **C8 witness**: a concrete all-sources outcome with a healthy spot
product yields an all-positive PriceSet. -/
theorem C8_positive_prices_witness :
    (∀ s f : ℚ, some (31.1034768 : ℚ) = some s → some (1000000 : ℚ) = some f →
      s ≠ 0 → f ≠ 0 → (1/2 : ℚ) < s * f / (31.1034768 : ℚ)) ∧
    pricesPositive (aggregate (fetch_antam_logammulia none)
      (fetch_harga_emas_org (some ("Rp 1.245.000")))
      (some (31.1034768 : ℚ)) (some (1000000 : ℚ))).1 := by
  have hs : ∀ s f : ℚ, some (31.1034768 : ℚ) = some s → some (1000000 : ℚ) = some f →
      s ≠ 0 → f ≠ 0 → (1/2 : ℚ) < s * f / (31.1034768 : ℚ) := by
    intro s f hsf hff h1 h2
    simp only [Option.some.injEq] at hsf hff
    subst hsf
    subst hff
    norm_num
  exact ⟨hs, C8_positive_prices none (some ("Rp 1.245.000"))
    (some (31.1034768 : ℚ)) (some (1000000 : ℚ)) hs⟩

theorem cache_get_hit (rest : Cache) (ts : ℚ) (v : AggVal) (now : ℚ)
    (h : now - ts ≤ 300) :
    cache_get ((("gold_prices"), (ts, v)) :: rest) ("gold_prices") now
      = ((("gold_prices"), (ts, v)) :: rest, some v) := by
  unfold cache_get dictGet CACHE_TTL_SECONDS
  rw [if_pos rfl]
  simp only []
  rw [if_neg (not_lt.mpr h)]

theorem cache_get_expired (rest : Cache) (ts : ℚ) (v : AggVal) (now : ℚ)
    (h : 300 < now - ts) :
    cache_get ((("gold_prices"), (ts, v)) :: rest) ("gold_prices") now
      = (rest, none) := by
  unfold cache_get dictGet CACHE_TTL_SECONDS
  rw [if_pos rfl]
  simp only []
  rw [if_pos h]
  unfold dictPop
  rw [if_pos rfl]

theorem get_hit (c c' : Cache) (v : AggVal) (now : ℚ)
    (a h : Option PriceQuote) (s f : Option ℚ)
    (hcg : cache_get c ("gold_prices") now = (c', some v)) :
    get_gold_prices_idr_per_gram c now a h s f = (c', v, []) := by
  unfold get_gold_prices_idr_per_gram
  rw [hcg]

theorem get_miss (c c' : Cache) (now : ℚ)
    (a h : Option PriceQuote) (s f : Option ℚ)
    (hcg : cache_get c ("gold_prices") now = (c', none)) :
    get_gold_prices_idr_per_gram c now a h s f
      = (cache_set c' ("gold_prices") now (aggregate a h s f),
         aggregate a h s f, missTrace) := by
  unfold get_gold_prices_idr_per_gram
  rw [hcg]

/-- **C4 (confirmed).** Cache semantics of the aggregation: a live
entry (age ≤ 300 s) is returned unchanged with no fetcher invoked
(empty fetch trace); an expired entry (age > 300 s) is deleted on that
read and fresh fetches are performed; after a miss, a second call
within the TTL window returns the identical value with no fetch, while
a second call after expiry fetches again. -/
theorem C4_cache_ttl (rest : Cache) (ts : ℚ) (v : AggVal) (now now2 : ℚ)
    (a h a2 h2 : Option PriceQuote) (s f s2 f2 : Option ℚ) :
    (now - ts ≤ 300 →
      get_gold_prices_idr_per_gram ((("gold_prices"), (ts, v)) :: rest) now a h s f
        = ((("gold_prices"), (ts, v)) :: rest, v, [])) ∧
    (300 < now - ts →
      get_gold_prices_idr_per_gram ((("gold_prices"), (ts, v)) :: rest) now a h s f
        = (cache_set rest ("gold_prices") now (aggregate a h s f),
           aggregate a h s f, missTrace)) ∧
    (now2 - now ≤ 300 →
      get_gold_prices_idr_per_gram
          (get_gold_prices_idr_per_gram [] now a h s f).1 now2 a2 h2 s2 f2
        = ((get_gold_prices_idr_per_gram [] now a h s f).1,
           (get_gold_prices_idr_per_gram [] now a h s f).2.1, [])) ∧
    (300 < now2 - now →
      (get_gold_prices_idr_per_gram
          (get_gold_prices_idr_per_gram [] now a h s f).1 now2 a2 h2 s2 f2).2.2
        = missTrace) := by
  have hr1 : get_gold_prices_idr_per_gram [] now a h s f
      = ([(("gold_prices"), (now, aggregate a h s f))], aggregate a h s f, missTrace) := by
    rw [get_miss [] [] now a h s f rfl]
    rfl
  refine ⟨?_, ?_, ?_, ?_⟩
  · intro h1
    exact get_hit _ _ _ _ _ _ _ _ (cache_get_hit rest ts v now h1)
  · intro h1
    exact get_miss _ _ _ _ _ _ _ (cache_get_expired rest ts v now h1)
  · intro h1
    rw [hr1]
    exact get_hit _ _ _ _ _ _ _ _ (cache_get_hit [] now (aggregate a h s f) now2 h1)
  · intro h1
    rw [hr1]
    rw [get_miss _ _ _ _ _ _ _ (cache_get_expired [] now (aggregate a h s f) now2 h1)]

/-- **C4 witness**: a live entry written at time 0 and read at time 100
is returned unchanged with no fetch. -/
theorem C4_cache_ttl_witness :
    (100 : ℚ) - 0 ≤ 300 ∧
    get_gold_prices_idr_per_gram
        [(("gold_prices"), ((0 : ℚ), (([], []) : AggVal)))] 100 none none none none
      = ([(("gold_prices"), ((0 : ℚ), (([], []) : AggVal)))], (([], []) : AggVal), []) :=
  ⟨by norm_num,
    (C4_cache_ttl [] 0 ([], []) 100 200 none none none none none none none none).1
      (by norm_num)⟩

/-- **C9 counterexample.** On a cache miss the fetch trace is the
sequential one, and it is *not* concurrent in the claimed sense: the
Harga-Emas.org fetcher starts only after the Antam fetcher's result is
in, because each `await` completes before the next call begins. -/
theorem C9_counterexample :
    (get_gold_prices_idr_per_gram [] 0 none none none none).2.2 = missTrace ∧
    concurrentStarts missTrace = false :=
  ⟨rfl, by decide⟩

/-- **C9 (amended).** On a cache miss the aggregation invokes the
fetchers *sequentially* — Antam, then Harga-Emas.org, then the spot+FX
pair, each awaited to completion before the next starts — and all of
them complete before the output is composed. -/
theorem C9_sequential_fetches (c : Cache) (now : ℚ)
    (a h : Option PriceQuote) (s f : Option ℚ)
    (hmiss : (cache_get c ("gold_prices") now).2 = none) :
    (get_gold_prices_idr_per_gram c now a h s f).2.2 = missTrace ∧
    isSequentialTrace ((get_gold_prices_idr_per_gram c now a h s f).2.2) = true := by
  rcases hcg : cache_get c ("gold_prices") now with ⟨c', o⟩
  rw [hcg] at hmiss
  simp only [] at hmiss
  subst hmiss
  rw [get_miss _ _ _ _ _ _ _ hcg]
  constructor
  · rfl
  · show isSequentialTrace missTrace = true
    decide

/-- **C9 witness**: a call on the empty cache is a miss and produces
the sequential trace. -/
theorem C9_sequential_fetches_witness :
    (cache_get [] ("gold_prices") 0).2 = none ∧
    ((get_gold_prices_idr_per_gram [] 0 none none none none).2.2 = missTrace ∧
      isSequentialTrace ((get_gold_prices_idr_per_gram [] 0 none none none none).2.2) = true) :=
  ⟨rfl, C9_sequential_fetches [] 0 none none none none rfl⟩

/-- **C10 (confirmed).** When every source fails, the aggregation still
caches the (empty PriceSet, NoteList) pair with the current timestamp,
so a subsequent call within the 300-second TTL returns the same
all-failed value with no fetch. -/
theorem C10_all_failed_cached (now now2 : ℚ) (a2 h2 : Option PriceQuote)
    (s2 f2 : Option ℚ) (httl : now2 - now ≤ 300) :
    (get_gold_prices_idr_per_gram [] now none none none none).2.1
      = ([], [("Antam source unavailable"), ("Harga-Emas.org source unavailable"),
              ("Spot source unavailable (missing/failed API keys)")]) ∧
    (get_gold_prices_idr_per_gram [] now none none none none).1
      = [(("gold_prices"), (now, (([], [("Antam source unavailable"),
          ("Harga-Emas.org source unavailable"),
          ("Spot source unavailable (missing/failed API keys)")]) : AggVal)))] ∧
    get_gold_prices_idr_per_gram
        (get_gold_prices_idr_per_gram [] now none none none none).1 now2 a2 h2 s2 f2
      = ((get_gold_prices_idr_per_gram [] now none none none none).1,
         (([], [("Antam source unavailable"), ("Harga-Emas.org source unavailable"),
                ("Spot source unavailable (missing/failed API keys)")]) : AggVal), []) := by
  have hagg : aggregate none none none none
      = (([], [("Antam source unavailable"), ("Harga-Emas.org source unavailable"),
               ("Spot source unavailable (missing/failed API keys)")]) : AggVal) := rfl
  have hr1 : get_gold_prices_idr_per_gram [] now none none none none
      = ([(("gold_prices"), (now, (([], [("Antam source unavailable"),
            ("Harga-Emas.org source unavailable"),
            ("Spot source unavailable (missing/failed API keys)")]) : AggVal)))],
         (([], [("Antam source unavailable"), ("Harga-Emas.org source unavailable"),
                ("Spot source unavailable (missing/failed API keys)")]) : AggVal),
         missTrace) := by
    rw [get_miss [] [] now none none none none rfl, hagg]
    rfl
  refine ⟨?_, ?_, ?_⟩
  · rw [hr1]
  · rw [hr1]
  · rw [hr1]
    exact get_hit _ _ _ _ _ _ _ _ (cache_get_hit [] now _ now2 httl)

/-- **C10 witness**: all-failed result at time 0, re-read at time 100. -/
theorem C10_all_failed_cached_witness :
    (100 : ℚ) - 0 ≤ 300 ∧
    (get_gold_prices_idr_per_gram [] 0 none none none none).2.1
      = ([], [("Antam source unavailable"), ("Harga-Emas.org source unavailable"),
              ("Spot source unavailable (missing/failed API keys)")]) :=
  ⟨by norm_num,
    (C10_all_failed_cached 0 100 none none none none (by norm_num)).1⟩

theorem medianLine_mem_format_lines (prices : PriceSet) (notes : Notes) (ts : String) :
    medianLine (medianCode (prices.map (fun p => p.2))) ∈ format_lines prices notes ts := by
  simp [format_lines]

theorem spreadLine_mem_format_lines (prices : PriceSet) (notes : Notes) (ts : String)
    (sl : String) (hsl : spreadLineOpt (prices.map (fun p => p.2)) = some sl) :
    sl ∈ format_lines prices notes ts := by
  simp [format_lines, hsl]

/-- **C5 counterexample.** The presenter does not render the standard
median: for values 1,000,000 and 1,010,001 the standard median is
1,005,000.5, but the rendered line shows `int()` of it, 1,005,000. -/
theorem C5_counterexample :
    medianCode [1000000, 1010001] = 1005000 ∧
    ((1005000 : ℤ) : ℚ) ≠ medianSpec [1000000, 1010001] ∧
    medianLine 1005000 ∈ format_lines [(("A"), 1000000), (("B"), 1010001)] [] ("t") := by
  have hmc : medianCode [1000000, 1010001] = 1005000 := by
    unfold medianCode truncQ sortVals
    norm_num [List.insertionSort, List.orderedInsert]
  refine ⟨hmc, ?_, ?_⟩
  · unfold medianSpec sortVals
    norm_num [List.insertionSort, List.orderedInsert]
  · have h2 : medianCode (([(("A"), 1000000), (("B"), 1010001)] : PriceSet).map
        (fun p => p.2)) = 1005000 := hmc
    rw [← h2]
    exact medianLine_mem_format_lines _ _ _

/-- **C5 (amended).** For every non-empty PriceSet the presenter
renders `int()` of the standard median — the truncation toward zero of
the standard median, which coincides with it whenever the standard
median is an integer (in particular for odd counts) — and renders a
spread line equal to max − min exactly when at least two values exist;
concretely, values 1,000,000 and 1,020,000 give median 1,010,000 and
spread 20,000, and values 1,000,000, 1,010,000, 1,050,000 give median
1,010,000. -/
theorem C5_median_spread :
    (∀ (prices : PriceSet) (notes : Notes) (ts : String), prices ≠ [] →
      medianCode (prices.map (fun p => p.2))
          = truncQ (medianSpec (prices.map (fun p => p.2))) ∧
      (∀ m : ℤ, medianSpec (prices.map (fun p => p.2)) = (m : ℚ) →
        medianCode (prices.map (fun p => p.2)) = m) ∧
      medianLine (medianCode (prices.map (fun p => p.2)))
          ∈ format_lines prices notes ts ∧
      ((spreadLineOpt (prices.map (fun p => p.2))).isSome
          ↔ 2 ≤ (prices.map (fun p => p.2)).length) ∧
      (2 ≤ (prices.map (fun p => p.2)).length →
        spreadCode (prices.map (fun p => p.2))
            = listMax (prices.map (fun p => p.2)) - listMin (prices.map (fun p => p.2)) ∧
        ∀ sl, spreadLineOpt (prices.map (fun p => p.2)) = some sl →
          sl ∈ format_lines prices notes ts)) ∧
    medianCode [1000000, 1020000] = 1010000 ∧
    spreadCode [1000000, 1020000] = 20000 ∧
    medianCode [1000000, 1010000, 1050000] = 1010000 := by
  refine ⟨?_, ?_, ?_, ?_⟩
  · intro prices notes ts _hne
    refine ⟨medianCode_eq_trunc _, ?_, medianLine_mem_format_lines _ _ _, ?_, ?_⟩
    · intro m hm
      rw [medianCode_eq_trunc, hm, truncQ_intCast]
    · unfold spreadLineOpt
      split
      · rename_i hc
        simp only [Option.isSome_some, true_iff]
        exact hc
      · rename_i hc
        simp only [Option.isSome_none, Bool.false_eq_true, false_iff]
        exact hc
    · intro h2
      refine ⟨?_, ?_⟩
      · unfold spreadCode
        rw [if_pos h2]
      · intro sl hsl
        exact spreadLine_mem_format_lines _ _ _ _ hsl
  · unfold medianCode truncQ sortVals
    norm_num [List.insertionSort, List.orderedInsert]
  · unfold spreadCode listMax listMin
    norm_num
  · unfold medianCode truncQ sortVals
    norm_num [List.insertionSort, List.orderedInsert]

/-- **C5 witness**: the two-value example PriceSet. -/
theorem C5_median_spread_witness :
    ([(("A"), 1000000), (("B"), 1020000)] : PriceSet) ≠ [] ∧
    (medianCode (([(("A"), 1000000), (("B"), 1020000)] : PriceSet).map (fun p => p.2))
        = truncQ (medianSpec (([(("A"), 1000000), (("B"), 1020000)] : PriceSet).map
            (fun p => p.2))) ∧
      (∀ m : ℤ, medianSpec (([(("A"), 1000000), (("B"), 1020000)] : PriceSet).map
            (fun p => p.2)) = (m : ℚ) →
        medianCode (([(("A"), 1000000), (("B"), 1020000)] : PriceSet).map
            (fun p => p.2)) = m) ∧
      medianLine (medianCode (([(("A"), 1000000), (("B"), 1020000)] : PriceSet).map
            (fun p => p.2)))
          ∈ format_lines [(("A"), 1000000), (("B"), 1020000)] [] ("t") ∧
      ((spreadLineOpt (([(("A"), 1000000), (("B"), 1020000)] : PriceSet).map
            (fun p => p.2))).isSome
          ↔ 2 ≤ (([(("A"), 1000000), (("B"), 1020000)] : PriceSet).map
              (fun p => p.2)).length) ∧
      (2 ≤ (([(("A"), 1000000), (("B"), 1020000)] : PriceSet).map (fun p => p.2)).length →
        spreadCode (([(("A"), 1000000), (("B"), 1020000)] : PriceSet).map (fun p => p.2))
            = listMax (([(("A"), 1000000), (("B"), 1020000)] : PriceSet).map (fun p => p.2))
              - listMin (([(("A"), 1000000), (("B"), 1020000)] : PriceSet).map
                  (fun p => p.2)) ∧
        ∀ sl, spreadLineOpt (([(("A"), 1000000), (("B"), 1020000)] : PriceSet).map
            (fun p => p.2)) = some sl →
          sl ∈ format_lines [(("A"), 1000000), (("B"), 1020000)] [] ("t"))) :=
  ⟨by decide,
    C5_median_spread.1 [(("A"), 1000000), (("B"), 1020000)] [] ("t") (by decide)⟩

end HargaEmas
